import Mathlib

/-!
Verification of the ct-diag-server publication pipeline.

This file gives a shallow embedding, in Lean, of the parts of the
dstotijn/ct-diag-server Go code that the specification talks about:

* the fixed 21-byte wire codec for Diagnosis Keys
  (`writeDiagnosisKeys` / `ParseDiagnosisKeys` in `diag/diag.go`),
* the in-memory caches (`MemoryCache.Set` / `MemoryCache.Add` in
  `diag/cache.go`, and the cursor-based `MemoryCache.ReadSeeker` of the
  byte-blob cache revision),
* the cache hydration performed at service construction
  (`Service.hydrateCache`),
* the repository store path (`Service.StoreDiagnosisKeys` and the
  postgres `Client.StoreDiagnosisKeys`),
* the HTTP handlers for `POST /diagnosis-keys` and `GET /diagnosis-keys`
  (`postDiagnosisKeys` / `listDiagnosisKeys` in `api/handler.go`).

Bytes are modelled as natural numbers (well-formedness `DiagnosisKey.WF`
carries the bounds the Go types enforce), byte buffers as `List Nat`,
timestamps as natural numbers with `0` playing the role of Go's zero
`time.Time`, and fallible operations return `Except`.
-/

deriving instance DecidableEq for Except

namespace CtDiag

/-- `diag.DiagnosisKey`: a Temporary Exposure Key (16 bytes), its rolling
start number (uint32), the transmission risk level (one byte) and the
server-side upload timestamp (`0` is Go's zero `time.Time`). -/
structure DiagnosisKey where
  temporaryExposureKey : List Nat
  rollingStartNumber : Nat
  transmissionRiskLevel : Nat
  uploadedAt : Nat
deriving DecidableEq

/-- The bounds the Go types (`[16]byte`, `uint32`, `byte`) enforce. -/
def DiagnosisKey.WF (k : DiagnosisKey) : Prop :=
  k.temporaryExposureKey.length = 16 ∧
  (∀ b ∈ k.temporaryExposureKey, b < 256) ∧
  k.rollingStartNumber < 4294967296 ∧
  k.transmissionRiskLevel < 256

instance (k : DiagnosisKey) : Decidable k.WF := by
  unfold DiagnosisKey.WF; infer_instance

/-- `binary.BigEndian.PutUint32`: the four big-endian bytes of a uint32. -/
def putUint32 (n : Nat) : List Nat :=
  [n / 16777216 % 256, n / 65536 % 256, n / 256 % 256, n % 256]

/-- `binary.BigEndian.Uint32`: read a uint32 from the first four bytes. -/
def readUint32 (b : List Nat) : Nat :=
  match b with
  | b0 :: b1 :: b2 :: b3 :: _ => ((b0 * 256 + b1) * 256 + b2) * 256 + b3
  | _ => 0

/-- One iteration of `writeDiagnosisKeys` (`diag/diag.go`): 16 key bytes,
4 big-endian bytes of `RollingStartNumber`, 1 byte
`TransmissionRiskLevel`; no delimiter. -/
def writeDiagnosisKey (k : DiagnosisKey) : List Nat :=
  k.temporaryExposureKey ++ putUint32 k.rollingStartNumber ++ [k.transmissionRiskLevel]

/-- `writeDiagnosisKeys` (`diag/diag.go` lines 264-287): concatenation of
the per-key records, in order. -/
def writeDiagnosisKeys (ks : List DiagnosisKey) : List Nat :=
  (ks.map writeDiagnosisKey).flatten

/-- `DiagnosisKeySize` in `diag/diag.go`. -/
def diagnosisKeySize : Nat := 21

/-- The message of Go's `io.ErrUnexpectedEOF`. -/
def ioErrUnexpectedEOF : String := "unexpected EOF"

/-- One parsed record of `ParseDiagnosisKeys`: key bytes `buf[start:start+16]`,
`RollingStartNumber` from the next four bytes, `TransmissionRiskLevel` from
`buf[start+20]`; `UploadedAt` is left at its zero value. -/
def mkParsedKey (chunk : List Nat) : DiagnosisKey :=
  { temporaryExposureKey := chunk.take 16
    rollingStartNumber := readUint32 ((chunk.drop 16).take 4)
    transmissionRiskLevel := (chunk.drop 20).headD 0
    uploadedAt := 0 }

/-- The parse loop of `ParseDiagnosisKeys`, written with structural
recursion on an iteration bound: every round consumes a 21-byte record,
so `buf.length` rounds always suffice (see `parseChunks`). -/
def parseChunksFuel : Nat → List Nat → List DiagnosisKey
  | 0, _ => []
  | fuel + 1, buf =>
    if buf.length < 21 then []
    else mkParsedKey (buf.take 21) :: parseChunksFuel fuel (buf.drop 21)

/-- The parse loop of `ParseDiagnosisKeys`: cut the buffer into 21-byte
records (the caller has checked the length is a non-zero multiple of 21). -/
def parseChunks (buf : List Nat) : List DiagnosisKey :=
  parseChunksFuel buf.length buf

/-- `ParseDiagnosisKeys` (`diag/diag.go` lines 213-244). The argument is
the outcome of `ioutil.ReadAll` on the request body reader: a read error
is propagated; an empty buffer or a length that is not a multiple of 21
yields `io.ErrUnexpectedEOF`; otherwise the records are decoded. -/
def ParseDiagnosisKeys (readResult : Except String (List Nat)) :
    Except String (List DiagnosisKey) :=
  match readResult with
  | Except.error e => Except.error e
  | Except.ok buf =>
    if buf.length = 0 then Except.error ioErrUnexpectedEOF
    else if buf.length % 21 ≠ 0 then Except.error ioErrUnexpectedEOF
    else Except.ok (parseChunks buf)

/-- Forget the field the wire format does not carry. -/
def clearUploadedAt (k : DiagnosisKey) : DiagnosisKey :=
  { k with uploadedAt := 0 }

/-! ### The cursor-based byte-blob cache (`MemoryCache.ReadSeeker`) -/

/-- The zero value of a `[16]byte` cursor. -/
def zeroKey : List Nat := List.replicate 16 0

/-- The scan loop of `MemoryCache.ReadSeeker`, written with structural
recursion on an iteration bound: every round advances 21 bytes into the
buffer, so `buf.length` rounds always suffice (see `scanAfter`). -/
def scanAfterFuel : Nat → List Nat → List Nat → List Nat
  | 0, _, _ => []
  | fuel + 1, after, buf =>
    if buf = [] then []
    else if buf.take 16 = after then buf.drop 21
    else scanAfterFuel fuel after (buf.drop 21)

/-- The scan loop of `MemoryCache.ReadSeeker`: walk the blob in strides of
21 bytes; when the 16 leading bytes of a record equal `after`, return the
bytes strictly after that record; when the scan runs out, return the empty
buffer. -/
def scanAfter (after : List Nat) (buf : List Nat) : List Nat :=
  scanAfterFuel buf.length after buf

/-- `MemoryCache.ReadSeeker` of the byte-blob cache revision: the zero
cursor yields the whole blob, otherwise the blob is scanned. -/
def memReadSeeker (after : List Nat) (buf : List Nat) : List Nat :=
  if after = zeroKey then buf else scanAfter after buf

/-! ### The day-offset in-memory cache (`diag/cache.go`) -/

/-- Nanoseconds per day: the argument of `Truncate(24 * time.Hour)`. -/
def nsPerDay : Nat := 86400000000000

/-- `time.Truncate(24 * time.Hour)` on a non-negative timestamp. -/
def truncateDay (t : Nat) : Nat := t - t % nsPerDay

/-- The in-memory cache state: the serialized blob, the day-offset index,
and the last-modified timestamp. -/
structure MemoryCache where
  buf : List Nat
  dayOffsets : List (Nat × Nat)
  lastModified : Nat
deriving DecidableEq

/-- The zero value of `MemoryCache`: what `&MemoryCache{}` starts from. -/
def initialCache : MemoryCache :=
  { buf := [], dayOffsets := [], lastModified := 0 }

/-- The loop of `MemoryCache.Set`: write each key once into a fresh buffer
and record the first offset of each upload day. -/
def setFold : List DiagnosisKey → List Nat → List (Nat × Nat) →
    List Nat × List (Nat × Nat)
  | [], buf, offs => (buf, offs)
  | k :: rest, buf, offs =>
    let day := truncateDay k.uploadedAt
    let offs2 := if (offs.lookup day).isSome then offs else offs ++ [(day, buf.length)]
    setFold rest (buf ++ writeDiagnosisKey k) offs2

/-- `MemoryCache.Set` (`diag/cache.go` lines 36-58): rebuild the blob and
the day-offset index from scratch and overwrite the timestamp. -/
def MemoryCache.Set (_mc : MemoryCache) (diagKeys : List DiagnosisKey)
    (lastModified : Nat) : MemoryCache :=
  let p := setFold diagKeys [] []
  { buf := p.1, dayOffsets := p.2, lastModified := lastModified }

/-- The loop of `MemoryCache.Add`: write each key once into a scratch
buffer, recording day offsets relative to the current blob end. -/
def addFold : List DiagnosisKey → List Nat → List (Nat × Nat) → Nat →
    List Nat × List (Nat × Nat)
  | [], buf, offs, _ => (buf, offs)
  | k :: rest, buf, offs, base =>
    let day := truncateDay k.uploadedAt
    let offs2 := if (offs.lookup day).isSome then offs else offs ++ [(day, base + buf.length)]
    addFold rest (buf ++ writeDiagnosisKey k) offs2 base

/-- `MemoryCache.Add` (`diag/cache.go` lines 63-86), translated as the code
stands: the per-key loop writes every key once into a scratch buffer, and
the statement after the loop (`writeDiagnosisKeys(buf, diagKeys...)`)
writes all of them a second time; the scratch buffer is then appended to
the blob and the timestamp is overwritten. -/
def MemoryCache.Add (mc : MemoryCache) (diagKeys : List DiagnosisKey)
    (lastModified : Nat) : MemoryCache :=
  let p := addFold diagKeys [] mc.dayOffsets mc.buf.length
  let scratch := p.1 ++ writeDiagnosisKeys diagKeys
  { buf := mc.buf ++ scratch, dayOffsets := p.2, lastModified := lastModified }

/-! ### Repository errors and cache hydration (`Service.hydrateCache`) -/

/-- Errors surfaced by the repository port: `diag.ErrNilDiagKeys` (the
spec's `EmptyBatch`) or a transport failure with its message. -/
inductive RepoError where
  | nilDiagKeys : RepoError
  | failure : String → RepoError
deriving DecidableEq

/-- `Service.hydrateCache` (`diag/diag.go` lines 289-308). The two
repository calls are passed as their outcomes. The returned flag records
whether `cache.Set` was invoked: when `LastModified` fails with
`ErrNilDiagKeys` the function returns `nil` early and the cache is left
untouched (`Set` is not called). -/
def hydrateCache (findAllRes : Except RepoError (List DiagnosisKey))
    (lastModifiedRes : Except RepoError Nat) (cache : MemoryCache) :
    Except RepoError (MemoryCache × Bool) :=
  match findAllRes with
  | Except.error e => Except.error e
  | Except.ok diagKeys =>
    match lastModifiedRes with
    | Except.error RepoError.nilDiagKeys => Except.ok (cache, false)
    | Except.error e => Except.error e
    | Except.ok lastModified =>
      Except.ok (cache.Set diagKeys lastModified, true)

/-! ### The store path (`Service.StoreDiagnosisKeys`, postgres client) -/

/-- A row as the postgres `Client.StoreDiagnosisKeys` statement inserts
it: `(temporary_exposure_key, rolling_start_number, transmission_risk_level,
uploaded_at)`. -/
structure InsertedRow where
  key : List Nat
  rollingStartNumber : Nat
  transmissionRiskLevel : Nat
  uploadedAt : Nat
deriving DecidableEq

/-- The message of the postgres client's zero-timestamp check. -/
def pgZeroUploadedAtMsg : String := "postgres: uploadedAt cannot be zero"

/-- `Client.StoreDiagnosisKeys` (`db/postgres/client.go` lines 173-212):
reject an empty batch with `ErrNilDiagKeys` and a zero timestamp; insert
one row per key, every row carrying the same `uploadedAt` argument. -/
def clientStoreDiagnosisKeys (diagKeys : List DiagnosisKey)
    (uploadedAt : Nat) : Except RepoError (List InsertedRow) :=
  if diagKeys = [] then Except.error RepoError.nilDiagKeys
  else if uploadedAt = 0 then Except.error (RepoError.failure pgZeroUploadedAtMsg)
  else Except.ok (diagKeys.map fun k =>
    { key := k.temporaryExposureKey
      rollingStartNumber := k.rollingStartNumber
      transmissionRiskLevel := k.transmissionRiskLevel
      uploadedAt := uploadedAt })

/-- `Service.StoreDiagnosisKeys` (`diag/diag.go` lines 196-205): take the
current UTC time (`now`, a parameter of the model) and forward the batch
with that single timestamp to the repository. -/
def serviceStoreDiagnosisKeys (now : Nat) (diagKeys : List DiagnosisKey) :
    Except RepoError (List InsertedRow) :=
  clientStoreDiagnosisKeys diagKeys now

/-! ### `POST /diagnosis-keys` (`api/handler.go`, `postDiagnosisKeys`) -/

/-- An HTTP response: the status code and the exact body written. -/
structure HttpResponse where
  status : Nat
  body : String
deriving DecidableEq

/-- The message of the error `http.MaxBytesReader` reports. -/
def tooLargeMsg : String := "http: request body too large"

/-- `http.MaxBytesReader` + `ioutil.ReadAll`: reading a body longer than
the cap fails with `http: request body too large`, otherwise the whole
body is read. -/
def readBody (cap : Nat) (body : List Nat) : Except String (List Nat) :=
  if body.length > cap then Except.error tooLargeMsg else Except.ok body

/-- The prefix the handler puts before a parse error message. -/
def invalidBodyPrefix : String := "Invalid body: "

/-- `http.StatusText(http.StatusInternalServerError)`. -/
def internalServerErrorMsg : String := "Internal Server Error"

/-- One newline, as `http.Error` appends to the message it writes. -/
def newline : String := "\n"

/-- `http.Error(w, msg, code)` writes `msg` followed by a newline. -/
def httpError (msg : String) : String := msg ++ newline

/-- The body `fmt.Fprint(w, "OK")` writes (no trailing newline). -/
def okMsg : String := "OK"

/-- `postDiagnosisKeys` (`api/handler.go` lines 233-250): wrap the body in
a `MaxBytesReader` capped at `maxUploadBatchSize * DiagnosisKeySize`
bytes, parse it, answer `400 Invalid body: <err>` on a parse error,
`500 Internal Server Error` when the repository fails (`storeRes` is the
repository outcome for the parsed batch), else `200 OK`. -/
def postDiagnosisKeys (maxUploadBatchSize : Nat) (reqBody : List Nat)
    (storeRes : Option RepoError) : HttpResponse :=
  match ParseDiagnosisKeys (readBody (maxUploadBatchSize * diagnosisKeySize) reqBody) with
  | Except.error e => { status := 400, body := httpError (invalidBodyPrefix ++ e) }
  | Except.ok _ =>
    match storeRes with
    | some _ => { status := 500, body := httpError internalServerErrorMsg }
    | none => { status := 200, body := okMsg }

/-! ### `GET /diagnosis-keys` (`api/handler.go`, `listDiagnosisKeys`) -/

/-- One hexadecimal digit, as `encoding/hex` accepts them. -/
def hexDigitVal (c : Char) : Option Nat :=
  if 48 ≤ c.toNat ∧ c.toNat ≤ 57 then some (c.toNat - 48)
  else if 97 ≤ c.toNat ∧ c.toNat ≤ 102 then some (c.toNat - 87)
  else if 65 ≤ c.toNat ∧ c.toNat ≤ 70 then some (c.toNat - 55)
  else none

/-- Whether `encoding/hex` accepts the character as a digit. -/
def isHexChar (c : Char) : Bool := (hexDigitVal c).isSome

/-- `hex.DecodeString` on the character list: strict pairs of hex digits;
an odd length or a non-hex character is an error. -/
def hexDecodeChars : List Char → Option (List Nat)
  | [] => some []
  | [_] => none
  | c1 :: c2 :: rest =>
    match hexDigitVal c1, hexDigitVal c2, hexDecodeChars rest with
    | some hi, some lo, some bs => some ((16 * hi + lo) :: bs)
    | _, _, _ => none

/-- `hex.DecodeString`. -/
def hexDecode (s : String) : Option (List Nat) := hexDecodeChars s.data

/-- The exact message `listDiagnosisKeys` passes to `http.Error` for a bad
`after` parameter (the parameter name is set in backquotes). -/
def afterErrMsg : String :=
  "Invalid `after` query parameter, must be the hexadecimal encoding of a 16 byte key."

/-- The message body claimed by the specification, with double quotes. -/
def afterErrMsgDoubleQuoted : String :=
  "Invalid \"after\" query parameter, must be the hexadecimal encoding of a 16 byte key."

/-- The empty query-parameter value. -/
def emptyParam : String := ""

/-- The loop of `Service.ListDiagnosisKeys`: return the keys strictly
after the first key whose `TemporaryExposureKey` equals `after`; `nil`
when no key matches. -/
def serviceFindAfter (after : List Nat) : List DiagnosisKey → List DiagnosisKey
  | [] => []
  | k :: rest => if k.temporaryExposureKey = after then rest else serviceFindAfter after rest

/-- `Service.ListDiagnosisKeys`: the zero cursor returns every cached key,
otherwise the cache is scanned for the cursor key. -/
def serviceListDiagnosisKeys (cached : List DiagnosisKey) (after : List Nat) :
    List DiagnosisKey :=
  if after = zeroKey then cached else serviceFindAfter after cached

/-- What the `listDiagnosisKeys` handler does after validating the
parameter: `badRequest msg` is `http.Error(w, msg, 400)`; `emptyOK` is the
`len(diagKeys) == 0` branch, which sets `Content-Length: 0` and returns —
an implicit `200 OK` with an empty body; `serveKeys ks` is the branch that
serializes and writes `ks` (status `200`, non-empty body). -/
inductive ListOutcome where
  | badRequest : String → ListOutcome
  | emptyOK : ListOutcome
  | serveKeys : List DiagnosisKey → ListOutcome
deriving DecidableEq

/-- The tail of the handler: empty keysets answer `Content-Length: 0`. -/
def mkListOutcome (ks : List DiagnosisKey) : ListOutcome :=
  if ks = [] then ListOutcome.emptyOK else ListOutcome.serveKeys ks

/-- `listDiagnosisKeys` (`api/handler.go` lines 66-106): an absent `after`
parameter leaves the zero cursor; a present one must hex-decode to exactly
16 bytes, else `400` with `afterErrMsg`; the service result is then
served. -/
def listDiagnosisKeys (afterParam : String) (cached : List DiagnosisKey) :
    ListOutcome :=
  if afterParam = emptyParam then mkListOutcome (serviceListDiagnosisKeys cached zeroKey)
  else
    match hexDecode afterParam with
    | none => ListOutcome.badRequest afterErrMsg
    | some buf =>
      if buf.length ≠ 16 then ListOutcome.badRequest afterErrMsg
      else mkListOutcome (serviceListDiagnosisKeys cached buf)

/-! ### Concrete sample data for witnesses and counterexamples -/

/-- 16 bytes of `0x01`. -/
def key1bytes : List Nat := List.replicate 16 1

/-- 16 bytes of `0x02`. -/
def key2bytes : List Nat := List.replicate 16 2

/-- A well-formed sample key. -/
def sampleKeyOne : DiagnosisKey :=
  { temporaryExposureKey := key1bytes, rollingStartNumber := 42,
    transmissionRiskLevel := 50, uploadedAt := 0 }

/-- A second well-formed sample key. -/
def sampleKeyTwo : DiagnosisKey :=
  { temporaryExposureKey := key2bytes, rollingStartNumber := 43,
    transmissionRiskLevel := 51, uploadedAt := 0 }

/-- A sample key with a non-zero upload timestamp. -/
def sampleKeyUp : DiagnosisKey :=
  { temporaryExposureKey := key1bytes, rollingStartNumber := 42,
    transmissionRiskLevel := 50, uploadedAt := 99 }

/-- The 21-byte record of `sampleKeyOne`. -/
def rec1 : List Nat := writeDiagnosisKey sampleKeyOne

/-- The 21-byte record of `sampleKeyTwo`. -/
def rec2 : List Nat := writeDiagnosisKey sampleKeyTwo

/-- The string "foobar", an invalid `after` value from the handler tests. -/
def foobarParam : String := "foobar"

/-- The 32-zero-digit hex encoding of the zero cursor key. -/
def zero32Param : String := "00000000000000000000000000000000"

/-- The 32-hex-digit encoding of `key1bytes`. -/
def key1Param : String := "01010101010101010101010101010101"

/-- The body the specification claims for an empty or ragged POST. -/
def specEOFMsg : String := "Invalid body: unexpected end of input"

/-- The body the specification claims for an oversized POST. -/
def specTooLargeMsg : String := "Invalid body: request body too large"

/-! ## Helper lemmas -/

theorem writeDiagnosisKey_length (k : DiagnosisKey)
    (h : k.temporaryExposureKey.length = 16) :
    (writeDiagnosisKey k).length = 21 := by
  simp [writeDiagnosisKey, putUint32, h]

theorem writeDiagnosisKeys_nil : writeDiagnosisKeys [] = [] := rfl

theorem writeDiagnosisKeys_cons (k : DiagnosisKey) (ks : List DiagnosisKey) :
    writeDiagnosisKeys (k :: ks) = writeDiagnosisKey k ++ writeDiagnosisKeys ks := by
  simp [writeDiagnosisKeys]

theorem writeDiagnosisKeys_length (ks : List DiagnosisKey)
    (h : ∀ k ∈ ks, k.temporaryExposureKey.length = 16) :
    (writeDiagnosisKeys ks).length = 21 * ks.length := by
  induction ks with
  | nil => simp [writeDiagnosisKeys]
  | cons k ks ih =>
    have hk : (writeDiagnosisKey k).length = 21 :=
      writeDiagnosisKey_length k (h k (List.mem_cons_self k ks))
    have ihh := ih (fun a ha => h a (List.mem_cons_of_mem k ha))
    rw [writeDiagnosisKeys_cons]
    simp only [List.length_append, hk, ihh, List.length_cons]
    ring

theorem readUint32_putUint32 (n : Nat) (h : n < 4294967296) :
    readUint32 (putUint32 n) = n := by
  simp only [putUint32, readUint32]
  omega

theorem mkParsedKey_write (k : DiagnosisKey) (hwf : k.WF) :
    mkParsedKey (writeDiagnosisKey k) = clearUploadedAt k := by
  obtain ⟨hlen, -, hrsn, -⟩ := hwf
  have hpu : (putUint32 k.rollingStartNumber).length = 4 := by simp [putUint32]
  have htake : (writeDiagnosisKey k).take 16 = k.temporaryExposureKey := by
    rw [writeDiagnosisKey, List.append_assoc, List.take_left' hlen]
  have hdrop : (writeDiagnosisKey k).drop 16 =
      putUint32 k.rollingStartNumber ++ [k.transmissionRiskLevel] := by
    rw [writeDiagnosisKey, List.append_assoc, List.drop_left' hlen]
  have hmid : ((writeDiagnosisKey k).drop 16).take 4 = putUint32 k.rollingStartNumber := by
    rw [hdrop, List.take_left' hpu]
  have htail : (writeDiagnosisKey k).drop 20 = [k.transmissionRiskLevel] := by
    have h20 : (k.temporaryExposureKey ++ putUint32 k.rollingStartNumber).length = 20 := by
      simp [hlen, hpu]
    rw [writeDiagnosisKey, List.drop_left' h20]
  simp [mkParsedKey, htake, hmid, htail, readUint32_putUint32 _ hrsn, clearUploadedAt]

theorem parseChunksFuel_congr : ∀ f1 f2 buf, buf.length ≤ f1 → buf.length ≤ f2 →
    parseChunksFuel f1 buf = parseChunksFuel f2 buf := by
  intro f1
  induction f1 with
  | zero =>
    intro f2 buf h1 h2
    have hb : buf = [] := List.eq_nil_of_length_eq_zero (Nat.le_zero.mp h1)
    subst hb
    cases f2 <;> simp [parseChunksFuel]
  | succ f ih =>
    intro f2 buf h1 h2
    cases f2 with
    | zero =>
      have hb : buf = [] := List.eq_nil_of_length_eq_zero (Nat.le_zero.mp h2)
      subst hb
      simp [parseChunksFuel]
    | succ f2 =>
      simp only [parseChunksFuel]
      by_cases hlt : buf.length < 21
      · simp [hlt]
      · simp only [hlt, if_false]
        have hlen : (buf.drop 21).length ≤ f := by
          simp only [List.length_drop]; omega
        have hlen2 : (buf.drop 21).length ≤ f2 := by
          simp only [List.length_drop]; omega
        rw [ih f2 (buf.drop 21) hlen hlen2]

theorem parseChunks_append (chunk rest : List Nat) (h : chunk.length = 21) :
    parseChunks (chunk ++ rest) = mkParsedKey chunk :: parseChunks rest := by
  have hlen : (chunk ++ rest).length = rest.length + 21 := by
    simp [h]; omega
  rw [parseChunks, hlen]
  show parseChunksFuel (rest.length + 20 + 1) (chunk ++ rest) = _
  rw [parseChunksFuel]
  have hnlt : ¬ (chunk ++ rest).length < 21 := by
    rw [hlen]; omega
  rw [if_neg hnlt, List.take_left' h, List.drop_left' h]
  rw [parseChunksFuel_congr (rest.length + 20) rest.length rest (by omega) (by omega)]
  rfl

theorem parseChunks_write (ks : List DiagnosisKey) (hwf : ∀ k ∈ ks, k.WF) :
    parseChunks (writeDiagnosisKeys ks) = ks.map clearUploadedAt := by
  induction ks with
  | nil => simp [writeDiagnosisKeys, parseChunks, parseChunksFuel]
  | cons k ks ih =>
    have hk : k.WF := hwf k (List.mem_cons_self k ks)
    rw [writeDiagnosisKeys_cons,
      parseChunks_append _ _ (writeDiagnosisKey_length k hk.1),
      mkParsedKey_write k hk, ih (fun a ha => hwf a (List.mem_cons_of_mem k ha))]
    rfl

theorem parseChunksFuel_uploadedAt : ∀ fuel buf k, k ∈ parseChunksFuel fuel buf →
    k.uploadedAt = 0 := by
  intro fuel
  induction fuel with
  | zero => intro buf k h; simp [parseChunksFuel] at h
  | succ f ih =>
    intro buf k h
    rw [parseChunksFuel] at h
    by_cases hlt : buf.length < 21
    · simp [hlt] at h
    · rw [if_neg hlt, List.mem_cons] at h
      rcases h with h | h
      · subst h; rfl
      · exact ih (buf.drop 21) k h

/-! ## C2: wire codec round trip -/

/-- C2, counterexample. The claim quantifies over every finite list of
keys, but for the empty list the encoder produces zero bytes and
`ParseDiagnosisKeys` rejects a zero-length buffer with
`io.ErrUnexpectedEOF` instead of returning the empty list. -/
theorem c2_counterexample :
    ParseDiagnosisKeys (Except.ok (writeDiagnosisKeys [])) =
      Except.error ioErrUnexpectedEOF ∧
    ParseDiagnosisKeys (Except.ok (writeDiagnosisKeys [])) ≠
      Except.ok (List.map clearUploadedAt []) := by
  decide

/-- C2 (amended to non-empty batches): for every non-empty list `ks` of
well-formed diagnosis keys, `writeDiagnosisKeys` produces exactly
`21 * ks.length` bytes and `ParseDiagnosisKeys` decodes that output back
to the keys themselves — same length, same order, and at every position
the same `TemporaryExposureKey`, `RollingStartNumber` and
`TransmissionRiskLevel` (`clearUploadedAt` only zeroes the `UploadedAt`
field, which the wire format does not carry). -/
theorem c2_roundtrip (ks : List DiagnosisKey) (hne : ks ≠ [])
    (hwf : ∀ k ∈ ks, k.WF) :
    (writeDiagnosisKeys ks).length = 21 * ks.length ∧
    ParseDiagnosisKeys (Except.ok (writeDiagnosisKeys ks)) =
      Except.ok (ks.map clearUploadedAt) := by
  have hlen : (writeDiagnosisKeys ks).length = 21 * ks.length :=
    writeDiagnosisKeys_length ks (fun k hk => (hwf k hk).1)
  refine ⟨hlen, ?_⟩
  have hpos : 0 < ks.length := List.length_pos.mpr hne
  have hn0 : ¬ (writeDiagnosisKeys ks).length = 0 := by omega
  have hmod : (writeDiagnosisKeys ks).length % 21 = 0 := by omega
  rw [ParseDiagnosisKeys]
  simp only [hn0, if_false, hmod, ne_eq, not_true_eq_false, if_false]
  rw [parseChunks_write ks hwf]

/-- C2, witness: the round trip at a concrete two-key batch. -/
theorem c2_witness :
    (writeDiagnosisKeys [sampleKeyUp, sampleKeyTwo]).length =
      21 * [sampleKeyUp, sampleKeyTwo].length ∧
    ParseDiagnosisKeys (Except.ok (writeDiagnosisKeys [sampleKeyUp, sampleKeyTwo])) =
      Except.ok ([sampleKeyUp, sampleKeyTwo].map clearUploadedAt) :=
  c2_roundtrip [sampleKeyUp, sampleKeyTwo] (by decide) (by decide)

/-! ## C1: the cursor read of the byte-blob cache -/

theorem scanAfterFuel_congr (after : List Nat) : ∀ f1 f2 buf, buf.length ≤ f1 →
    buf.length ≤ f2 → scanAfterFuel f1 after buf = scanAfterFuel f2 after buf := by
  intro f1
  induction f1 with
  | zero =>
    intro f2 buf h1 h2
    have hb : buf = [] := List.eq_nil_of_length_eq_zero (Nat.le_zero.mp h1)
    subst hb
    cases f2 <;> simp [scanAfterFuel]
  | succ f ih =>
    intro f2 buf h1 h2
    cases f2 with
    | zero =>
      have hb : buf = [] := List.eq_nil_of_length_eq_zero (Nat.le_zero.mp h2)
      subst hb
      simp [scanAfterFuel]
    | succ f2 =>
      simp only [scanAfterFuel]
      by_cases hnil : buf = []
      · simp [hnil]
      · simp only [hnil, if_false]
        by_cases hkey : buf.take 16 = after
        · simp [hkey]
        · simp only [hkey, if_false]
          have hpos : 0 < buf.length := List.length_pos.mpr hnil
          have hlen : (buf.drop 21).length ≤ f := by
            simp only [List.length_drop]; omega
          have hlen2 : (buf.drop 21).length ≤ f2 := by
            simp only [List.length_drop]; omega
          exact ih f2 (buf.drop 21) hlen hlen2

theorem scanAfter_found (after r rest : List Nat) (h21 : r.length = 21)
    (hkey : r.take 16 = after) : scanAfter after (r ++ rest) = rest := by
  have hlen : (r ++ rest).length = rest.length + 21 := by simp [h21]; omega
  have hne : r ++ rest ≠ [] := by
    intro h
    have := congrArg List.length h
    simp [hlen] at this
  have htake : (r ++ rest).take 16 = after := by
    rw [List.take_append_of_le_length (by omega), ← hkey]
  rw [scanAfter, hlen]
  show scanAfterFuel (rest.length + 20 + 1) after (r ++ rest) = rest
  rw [scanAfterFuel, if_neg hne, if_pos htake, List.drop_left' h21]

theorem scanAfter_miss (after r rest : List Nat) (h21 : r.length = 21)
    (hkey : r.take 16 ≠ after) : scanAfter after (r ++ rest) = scanAfter after rest := by
  have hlen : (r ++ rest).length = rest.length + 21 := by simp [h21]; omega
  have hne : r ++ rest ≠ [] := by
    intro h
    have := congrArg List.length h
    simp [hlen] at this
  have htake : (r ++ rest).take 16 ≠ after := by
    rw [List.take_append_of_le_length (by omega)]
    have : r.take 16 = List.take 16 r := rfl
    rw [← this]
    exact hkey
  rw [scanAfter, hlen]
  show scanAfterFuel (rest.length + 20 + 1) after (r ++ rest) = scanAfter after rest
  rw [scanAfterFuel, if_neg hne, if_neg htake, List.drop_left' h21]
  exact scanAfterFuel_congr after (rest.length + 20) rest.length rest (by omega) (by omega)

theorem scanAfter_skip (after : List Nat) : ∀ pre : List (List Nat), ∀ rest : List Nat,
    (∀ p ∈ pre, p.length = 21) → (∀ p ∈ pre, p.take 16 ≠ after) →
    scanAfter after (pre.flatten ++ rest) = scanAfter after rest := by
  intro pre
  induction pre with
  | nil => intro rest _ _; simp
  | cons p pre ih =>
    intro rest hlen hkey
    rw [List.flatten_cons, List.append_assoc]
    rw [scanAfter_miss after p (pre.flatten ++ rest)
      (hlen p (List.mem_cons_self p pre)) (hkey p (List.mem_cons_self p pre))]
    exact ih rest (fun a ha => hlen a (List.mem_cons_of_mem p ha))
      (fun a ha => hkey a (List.mem_cons_of_mem p ha))

theorem scanAfter_absent (after : List Nat) : ∀ records : List (List Nat),
    (∀ r ∈ records, r.length = 21) → (∀ r ∈ records, r.take 16 ≠ after) →
    scanAfter after records.flatten = [] := by
  intro records hlen hkey
  have h := scanAfter_skip after records [] hlen hkey
  rw [List.append_nil] at h
  rw [h]
  rfl

/-- C1, counterexample. The claim asserts, for every blob of records and
every cursor `c`, that an absent cursor key yields the empty blob — but
for the all-zero cursor over the single-record blob `rec1` (whose key is
sixteen `0x01` bytes, so no record key equals the cursor) the code takes
the zero-cursor branch first and returns the whole blob, not the empty
one. The three conditions of the claim therefore cannot all hold as
stated. -/
theorem c1_counterexample :
    rec1.length = 21 ∧ rec1.take 16 ≠ zeroKey ∧
    memReadSeeker zeroKey rec1 = rec1 ∧ rec1 ≠ [] := by
  decide

/-- C1 (amended): the zero-cursor rule takes precedence over the other
two. For a blob that is a concatenation of 21-byte records with
pairwise-distinct key fields: the all-zero cursor returns the whole blob;
a non-zero cursor matching some record's first 16 bytes returns the
suffix strictly after that record; a non-zero cursor matching no record
returns the empty buffer. -/
theorem c1_cursor_read (records : List (List Nat)) (c : List Nat)
    (hlen : ∀ r ∈ records, r.length = 21)
    (hnodup : (records.map (fun r => r.take 16)).Nodup)
    (_hc : c.length = 16) :
    (c = zeroKey → memReadSeeker c records.flatten = records.flatten) ∧
    (c ≠ zeroKey → ∀ pre r post, records = pre ++ r :: post → r.take 16 = c →
      memReadSeeker c records.flatten = post.flatten) ∧
    (c ≠ zeroKey → (∀ r ∈ records, r.take 16 ≠ c) →
      memReadSeeker c records.flatten = []) := by
  refine ⟨?_, ?_, ?_⟩
  · intro hz
    simp [memReadSeeker, hz]
  · intro hnz pre r post hrec hkey
    subst hrec
    rw [memReadSeeker, if_neg hnz]
    have hpre : ∀ p ∈ pre, p.take 16 ≠ c := by
      intro p hp hpc
      have hmap : ((pre ++ r :: post).map fun r => r.take 16) =
          (pre.map fun r => r.take 16) ++ (r.take 16 :: post.map fun r => r.take 16) := by
        simp
      rw [hmap] at hnodup
      have hdisj := List.disjoint_of_nodup_append hnodup
      have h1 : p.take 16 ∈ pre.map fun r => r.take 16 :=
        List.mem_map_of_mem (fun r => r.take 16) hp
      have h2 : p.take 16 ∈ (r.take 16 :: post.map fun r => r.take 16) := by
        rw [hpc, ← hkey]
        exact List.mem_cons_self _ _
      exact hdisj h1 h2
    have hflat : (pre ++ r :: post).flatten = pre.flatten ++ (r ++ post.flatten) := by
      rw [List.flatten_append, List.flatten_cons]
    rw [hflat,
      scanAfter_skip c pre (r ++ post.flatten)
        (fun p hp => hlen p (List.mem_append_left _ hp)) hpre,
      scanAfter_found c r post.flatten
        (hlen r (List.mem_append_right _ (List.mem_cons_self r post))) hkey]
  · intro hnz habs
    rw [memReadSeeker, if_neg hnz]
    exact scanAfter_absent c records hlen habs

/-- C1, witness: in the blob of the two sample records, the cursor equal
to the first record's key returns exactly the second record. -/
theorem c1_witness :
    memReadSeeker key1bytes (List.flatten [rec1, rec2]) = List.flatten [rec2] :=
  (c1_cursor_read [rec1, rec2] key1bytes (by decide) (by decide) (by decide)).2.1
    (by decide) [] rec1 [rec2] rfl (by decide)

/-! ## C3: `MemoryCache.Set` rebuilds the blob as the concatenation of
the wire records -/

theorem setFold_buf : ∀ ks : List DiagnosisKey, ∀ buf : List Nat,
    ∀ offs : List (Nat × Nat), (setFold ks buf offs).1 = buf ++ writeDiagnosisKeys ks := by
  intro ks
  induction ks with
  | nil => intro buf offs; simp [setFold, writeDiagnosisKeys]
  | cons k ks ih =>
    intro buf offs
    rw [setFold]
    rw [ih]
    rw [writeDiagnosisKeys_cons, List.append_assoc]

/-- C3: after any `MemoryCache.Set` call, the cache blob is exactly the
concatenation of the 21-byte wire encodings of the given keys, in the
given (repository) order, and its length is `21 * N`. -/
theorem c3_set_blob (mc : MemoryCache) (ks : List DiagnosisKey) (lm : Nat)
    (hwf : ∀ k ∈ ks, k.temporaryExposureKey.length = 16) :
    (mc.Set ks lm).buf = (ks.map writeDiagnosisKey).flatten ∧
    (mc.Set ks lm).buf.length = 21 * ks.length := by
  have hbuf : (mc.Set ks lm).buf = writeDiagnosisKeys ks := by
    rw [MemoryCache.Set]
    exact setFold_buf ks [] []
  refine ⟨hbuf, ?_⟩
  rw [hbuf]
  exact writeDiagnosisKeys_length ks hwf

/-- C3, witness: a concrete two-key replacement. -/
theorem c3_witness :
    (initialCache.Set [sampleKeyUp, sampleKeyTwo] 7).buf =
      ([sampleKeyUp, sampleKeyTwo].map writeDiagnosisKey).flatten ∧
    (initialCache.Set [sampleKeyUp, sampleKeyTwo] 7).buf.length =
      21 * [sampleKeyUp, sampleKeyTwo].length :=
  c3_set_blob initialCache [sampleKeyUp, sampleKeyTwo] 7 (by decide)

/-! ## C7: hydration over an empty repository -/

/-- C7, counterexample. Over an empty repository (`FindAllDiagnosisKeys`
returns no keys, `LastModified` fails with `ErrNilDiagKeys`),
`Service.hydrateCache` in `diag/diag.go` returns success early — the
returned flag `false` records that `cache.Set` was never invoked, which
contradicts the claim that the initial blob is installed via `Cache.Set`. -/
theorem c7_counterexample :
    hydrateCache (Except.ok ([] : List DiagnosisKey))
        (Except.error RepoError.nilDiagKeys) initialCache =
      Except.ok (initialCache, false) ∧
    (Except.ok (initialCache, false) : Except RepoError (MemoryCache × Bool)) ≠
      Except.ok (initialCache, true) := by
  decide

/-- C7 (amended): over a repository whose `LastModified` fails with
`ErrNilDiagKeys`, hydration succeeds (so construction succeeds) but
returns early *without* calling `Cache.Set`; the cache keeps its previous
state — for the fresh in-memory cache of a new service that is the zero
state: empty blob and zero `lastModified`. -/
theorem c7_hydrate_empty (ks : List DiagnosisKey) (c : MemoryCache) :
    hydrateCache (Except.ok ks) (Except.error RepoError.nilDiagKeys) c =
      Except.ok (c, false) ∧
    initialCache.buf = [] ∧ initialCache.lastModified = 0 :=
  ⟨rfl, rfl, rfl⟩

/-! ## C10: `MemoryCache.Add` appends every record twice -/

/-- C10: evaluating `MemoryCache.Add` at the failing input. Adding the
single key `sampleKeyOne` to the empty cache appends its 21-byte record
twice: the per-key loop writes it once and the
`writeDiagnosisKeys(buf, diagKeys...)` call after the loop writes all
keys again, so the blob grows by 42 bytes instead of 21 (the timestamp
is set as intended). -/
theorem c10_add_double_write :
    (initialCache.Add [sampleKeyOne] 5).buf =
      writeDiagnosisKey sampleKeyOne ++ writeDiagnosisKey sampleKeyOne ∧
    (initialCache.Add [sampleKeyOne] 5).buf.length = 42 ∧
    (initialCache.Add [sampleKeyOne] 5).lastModified = 5 ∧
    writeDiagnosisKey sampleKeyOne ++ writeDiagnosisKey sampleKeyOne ≠
      writeDiagnosisKey sampleKeyOne := by
  decide

/-! ## C4 and C5: the POST error paths -/

theorem parseDiagnosisKeys_ok (buf : List Nat) :
    ParseDiagnosisKeys (Except.ok buf) =
      if buf.length = 0 then Except.error ioErrUnexpectedEOF
      else if buf.length % 21 ≠ 0 then Except.error ioErrUnexpectedEOF
      else Except.ok (parseChunks buf) := rfl

theorem parseDiagnosisKeys_propagates (e : String) :
    ParseDiagnosisKeys (Except.error e) = Except.error e := rfl

/-- C4, counterexample. For the empty body the handler does answer `400`,
but the message is built from `io.ErrUnexpectedEOF`, whose text is
`unexpected EOF` — the body is `Invalid body: unexpected EOF` (plus the
newline `http.Error` appends), not the claimed
`Invalid body: unexpected end of input`. -/
theorem c4_counterexample :
    postDiagnosisKeys 14 [] none =
      { status := 400, body := httpError (invalidBodyPrefix ++ ioErrUnexpectedEOF) } ∧
    (postDiagnosisKeys 14 [] none).body ≠ specEOFMsg ∧
    (postDiagnosisKeys 14 [] none).body ≠ httpError specEOFMsg := by
  decide

/-- C4 (amended): for every POST body within the size cap whose length is
zero or not a multiple of 21, the decoder fails with
`io.ErrUnexpectedEOF` and the handler responds `400` with body
`Invalid body: unexpected EOF` followed by the newline `http.Error`
appends. -/
theorem c4_empty_or_ragged (maxBatch : Nat) (body : List Nat)
    (storeRes : Option RepoError)
    (hcap : body.length ≤ maxBatch * diagnosisKeySize)
    (hbad : body.length = 0 ∨ body.length % 21 ≠ 0) :
    postDiagnosisKeys maxBatch body storeRes =
      { status := 400, body := httpError (invalidBodyPrefix ++ ioErrUnexpectedEOF) } := by
  have hread : readBody (maxBatch * diagnosisKeySize) body = Except.ok body := by
    rw [readBody, if_neg (by omega)]
  have hparse : ParseDiagnosisKeys (Except.ok body) = Except.error ioErrUnexpectedEOF := by
    rw [parseDiagnosisKeys_ok]
    rcases hbad with h0 | hmod
    · rw [if_pos h0]
    · by_cases h0 : body.length = 0
      · rw [if_pos h0]
      · rw [if_neg h0, if_pos hmod]
  rw [postDiagnosisKeys.eq_def, hread, hparse]

/-- C4, witness: a one-byte body within the default cap. -/
theorem c4_witness :
    postDiagnosisKeys 14 [0] none =
      { status := 400, body := httpError (invalidBodyPrefix ++ ioErrUnexpectedEOF) } :=
  c4_empty_or_ragged 14 [0] none (by decide) (by decide)

/-- C5, counterexample. A 22-byte body against a cap of one key does get
a `400`, but the body is `Invalid body: http: request body too large`
(the text of the error `http.MaxBytesReader` reports, prefixed by the
handler) — not the claimed `Invalid body: request body too large`. -/
theorem c5_counterexample :
    postDiagnosisKeys 1 (List.replicate 22 0) none =
      { status := 400, body := httpError (invalidBodyPrefix ++ tooLargeMsg) } ∧
    (postDiagnosisKeys 1 (List.replicate 22 0) none).body ≠ specTooLargeMsg ∧
    (postDiagnosisKeys 1 (List.replicate 22 0) none).body ≠ httpError specTooLargeMsg := by
  decide

/-- C5 (amended): the POST body is read through a reader capped at exactly
`maxUploadBatchSize * 21` bytes: every longer body is answered with `400`
and body `Invalid body: http: request body too large` (plus the newline
`http.Error` appends), and no body within the cap ever produces that
message. -/
theorem c5_too_large (maxBatch : Nat) (body : List Nat)
    (storeRes : Option RepoError) :
    (body.length > maxBatch * diagnosisKeySize →
      postDiagnosisKeys maxBatch body storeRes =
        { status := 400, body := httpError (invalidBodyPrefix ++ tooLargeMsg) }) ∧
    (body.length ≤ maxBatch * diagnosisKeySize →
      (postDiagnosisKeys maxBatch body storeRes).body ≠
        httpError (invalidBodyPrefix ++ tooLargeMsg)) := by
  constructor
  · intro hgt
    have hread : readBody (maxBatch * diagnosisKeySize) body = Except.error tooLargeMsg := by
      rw [readBody, if_pos hgt]
    rw [postDiagnosisKeys.eq_def, hread, parseDiagnosisKeys_propagates]
  · intro hle
    have hread : readBody (maxBatch * diagnosisKeySize) body = Except.ok body := by
      rw [readBody, if_neg (by omega)]
    rw [postDiagnosisKeys.eq_def, hread, parseDiagnosisKeys_ok]
    by_cases h0 : body.length = 0
    · rw [if_pos h0]
      show httpError (invalidBodyPrefix ++ ioErrUnexpectedEOF) ≠
        httpError (invalidBodyPrefix ++ tooLargeMsg)
      decide
    · rw [if_neg h0]
      by_cases hm : body.length % 21 ≠ 0
      · rw [if_pos hm]
        show httpError (invalidBodyPrefix ++ ioErrUnexpectedEOF) ≠
          httpError (invalidBodyPrefix ++ tooLargeMsg)
        decide
      · rw [if_neg hm]
        cases storeRes with
        | some e =>
          show httpError internalServerErrorMsg ≠ httpError (invalidBodyPrefix ++ tooLargeMsg)
          decide
        | none =>
          show okMsg ≠ httpError (invalidBodyPrefix ++ tooLargeMsg)
          decide

/-- C5, witness: the cap is exact for one key — 22 bytes are rejected as
too large while 21 bytes are not. -/
theorem c5_witness :
    postDiagnosisKeys 1 (List.replicate 22 0) none =
      { status := 400, body := httpError (invalidBodyPrefix ++ tooLargeMsg) } ∧
    (postDiagnosisKeys 1 (List.replicate 21 0) none).body ≠
      httpError (invalidBodyPrefix ++ tooLargeMsg) :=
  ⟨(c5_too_large 1 (List.replicate 22 0) none).1 (by decide),
   (c5_too_large 1 (List.replicate 21 0) none).2 (by decide)⟩

/-! ## C8: one server-assigned timestamp per stored batch -/

/-- C8: for every non-empty batch and non-zero server time `now`,
`Service.StoreDiagnosisKeys` hands every key of the batch to the
repository with the single timestamp `now` (one row per key, all rows
carrying `uploadedAt = now`), and the upload decoder never takes a
timestamp from the request body: every key `ParseDiagnosisKeys` returns
has `uploadedAt = 0`, the zero value. -/
theorem c8_store_timestamp (now : Nat) (ks : List DiagnosisKey)
    (hne : ks ≠ []) (hnz : now ≠ 0) :
    serviceStoreDiagnosisKeys now ks =
      Except.ok (ks.map fun k =>
        { key := k.temporaryExposureKey
          rollingStartNumber := k.rollingStartNumber
          transmissionRiskLevel := k.transmissionRiskLevel
          uploadedAt := now }) ∧
    (∀ rows, serviceStoreDiagnosisKeys now ks = Except.ok rows →
      ∀ r ∈ rows, r.uploadedAt = now) ∧
    (∀ res ks2, ParseDiagnosisKeys res = Except.ok ks2 →
      ∀ k ∈ ks2, k.uploadedAt = 0) := by
  have hmain : serviceStoreDiagnosisKeys now ks =
      Except.ok (ks.map fun k =>
        { key := k.temporaryExposureKey
          rollingStartNumber := k.rollingStartNumber
          transmissionRiskLevel := k.transmissionRiskLevel
          uploadedAt := now }) := by
    rw [serviceStoreDiagnosisKeys, clientStoreDiagnosisKeys, if_neg hne, if_neg hnz]
  refine ⟨hmain, ?_, ?_⟩
  · intro rows hrows r hr
    rw [hmain] at hrows
    injection hrows with hrows
    subst hrows
    obtain ⟨k, -, hk⟩ := List.mem_map.mp hr
    rw [← hk]
  · intro res ks2 hres k hk
    cases res with
    | error e =>
      rw [parseDiagnosisKeys_propagates] at hres
      exact absurd hres (by simp)
    | ok buf =>
      rw [parseDiagnosisKeys_ok] at hres
      by_cases h0 : buf.length = 0
      · rw [if_pos h0] at hres
        exact absurd hres (by simp)
      · rw [if_neg h0] at hres
        by_cases hm : buf.length % 21 ≠ 0
        · rw [if_pos hm] at hres
          exact absurd hres (by simp)
        · rw [if_neg hm] at hres
          injection hres with hres
          subst hres
          exact parseChunksFuel_uploadedAt buf.length buf k hk

/-- C8, witness: a concrete two-key batch at server time 7. -/
theorem c8_witness :
    serviceStoreDiagnosisKeys 7 [sampleKeyOne, sampleKeyTwo] =
      Except.ok ([sampleKeyOne, sampleKeyTwo].map fun k =>
        { key := k.temporaryExposureKey
          rollingStartNumber := k.rollingStartNumber
          transmissionRiskLevel := k.transmissionRiskLevel
          uploadedAt := 7 }) :=
  (c8_store_timestamp 7 [sampleKeyOne, sampleKeyTwo] (by decide) (by decide)).1

/-! ## C6 and C9: the GET `after` parameter -/

theorem hexDecodeChars_some : ∀ cs : List Char, ∀ bs : List Nat,
    hexDecodeChars cs = some bs →
    cs.length = 2 * bs.length ∧ ∀ c ∈ cs, isHexChar c = true
  | [], bs, h => by
    rw [hexDecodeChars] at h
    injection h with h
    subst h
    simp
  | [c], bs, h => by
    rw [hexDecodeChars] at h
    exact absurd h (by simp)
  | c1 :: c2 :: rest, bs, h => by
    rw [hexDecodeChars] at h
    cases h1 : hexDigitVal c1 with
    | none => rw [h1] at h; exact absurd h (by simp)
    | some hi =>
      cases h2 : hexDigitVal c2 with
      | none => rw [h1, h2] at h; exact absurd h (by simp)
      | some lo =>
        cases h3 : hexDecodeChars rest with
        | none => rw [h1, h2, h3] at h; exact absurd h (by simp)
        | some bs3 =>
          rw [h1, h2, h3] at h
          injection h with h
          subst h
          obtain ⟨hrlen, hrhex⟩ := hexDecodeChars_some rest bs3 h3
          constructor
          · simp only [List.length_cons, hrlen]
            omega
          · intro c hc
            rw [List.mem_cons, List.mem_cons] at hc
            rcases hc with hc | hc | hc
            · subst hc; rw [isHexChar, h1]; rfl
            · subst hc; rw [isHexChar, h2]; rfl
            · exact hrhex c hc

/-- C6, counterexample. For the malformed value `foobar` the handler does
answer `400`, but the body sets the parameter name in backquotes —
`` Invalid `after` query parameter, ... `` — not in the double quotes the
claim states. -/
theorem c6_counterexample :
    listDiagnosisKeys foobarParam [] = ListOutcome.badRequest afterErrMsg ∧
    afterErrMsg ≠ afterErrMsgDoubleQuoted := by
  decide

/-- C6 (amended): for every present `after` value that is not 32
hexadecimal digits, the handler answers `400` with the exact message
`afterErrMsg` — the claimed text with the parameter name in backquotes
rather than double quotes (and, being written via `http.Error`, followed
by a newline). -/
theorem c6_bad_after (s : String) (cached : List DiagnosisKey)
    (hne : s ≠ emptyParam)
    (hbad : ¬ (s.data.length = 32 ∧ ∀ c ∈ s.data, isHexChar c = true)) :
    listDiagnosisKeys s cached = ListOutcome.badRequest afterErrMsg := by
  rw [listDiagnosisKeys, if_neg hne]
  cases hdec : hexDecode s with
  | none => rfl
  | some buf =>
    have hlen : buf.length ≠ 16 := by
      intro h16
      obtain ⟨hl, hhex⟩ := hexDecodeChars_some s.data buf hdec
      exact hbad ⟨by rw [hl, h16], hhex⟩
    show (if buf.length ≠ 16 then ListOutcome.badRequest afterErrMsg
      else mkListOutcome (serviceListDiagnosisKeys cached buf)) =
      ListOutcome.badRequest afterErrMsg
    rw [if_pos hlen]

/-- C6, witness: the handler test's literal input `foobar`. -/
theorem c6_witness :
    listDiagnosisKeys foobarParam [] = ListOutcome.badRequest afterErrMsg :=
  c6_bad_after foobarParam [] (by decide) (by decide)

theorem serviceFindAfter_absent (after : List Nat) : ∀ cached : List DiagnosisKey,
    (∀ k ∈ cached, k.temporaryExposureKey ≠ after) →
    serviceFindAfter after cached = [] := by
  intro cached
  induction cached with
  | nil => intro _; rfl
  | cons k rest ih =>
    intro habs
    rw [serviceFindAfter, if_neg (habs k (List.mem_cons_self k rest))]
    exact ih (fun a ha => habs a (List.mem_cons_of_mem k ha))

/-- C9, counterexample. The all-zero cursor is a well-formed 16-byte key
(32 hex digits) that occurs in no record of the one-key cache — yet the
handler takes the zero-cursor branch of the service and serves the whole
keyset, not an empty `Content-Length: 0` response. -/
theorem c9_counterexample :
    hexDecode zero32Param = some zeroKey ∧
    sampleKeyOne.temporaryExposureKey ≠ zeroKey ∧
    listDiagnosisKeys zero32Param [sampleKeyOne] =
      ListOutcome.serveKeys [sampleKeyOne] ∧
    listDiagnosisKeys zero32Param [sampleKeyOne] ≠ ListOutcome.emptyOK := by
  decide

/-- C9 (amended): a GET over an empty store — with no `after` parameter
or with any well-formed one — and a GET whose well-formed `after` key is
*non-zero* and occurs nowhere in the cached keyset, both take the
`len(diagKeys) == 0` branch: status `200`, `Content-Length: 0`, empty
body (`ListOutcome.emptyOK`). -/
theorem c9_empty_results (s : String) (buf : List Nat)
    (cached : List DiagnosisKey)
    (hdec : hexDecode s = some buf) (hlen : buf.length = 16)
    (hnz : buf ≠ zeroKey)
    (habsent : ∀ k ∈ cached, k.temporaryExposureKey ≠ buf) :
    listDiagnosisKeys emptyParam [] = ListOutcome.emptyOK ∧
    listDiagnosisKeys s [] = ListOutcome.emptyOK ∧
    listDiagnosisKeys s cached = ListOutcome.emptyOK := by
  have hne : s ≠ emptyParam := by
    intro he
    have h0 : hexDecode emptyParam = some ([] : List Nat) := rfl
    rw [he, h0] at hdec
    injection hdec with hdec
    rw [← hdec] at hlen
    exact absurd hlen (by decide)
  have hserve : ∀ cached2 : List DiagnosisKey,
      (∀ k ∈ cached2, k.temporaryExposureKey ≠ buf) →
      listDiagnosisKeys s cached2 = ListOutcome.emptyOK := by
    intro cached2 habs2
    rw [listDiagnosisKeys, if_neg hne, hdec]
    show (if buf.length ≠ 16 then ListOutcome.badRequest afterErrMsg
      else mkListOutcome (serviceListDiagnosisKeys cached2 buf)) =
      ListOutcome.emptyOK
    rw [if_neg (by omega : ¬ buf.length ≠ 16)]
    rw [serviceListDiagnosisKeys, if_neg hnz, serviceFindAfter_absent buf cached2 habs2]
    rfl
  exact ⟨rfl, hserve [] (by simp), hserve cached habsent⟩

/-- C9, witness: the key `01…01` is well formed and absent from the
one-key cache holding `sampleKeyTwo`; the store-empty cases come along. -/
theorem c9_witness :
    listDiagnosisKeys emptyParam [] = ListOutcome.emptyOK ∧
    listDiagnosisKeys key1Param [] = ListOutcome.emptyOK ∧
    listDiagnosisKeys key1Param [sampleKeyTwo] = ListOutcome.emptyOK :=
  c9_empty_results key1Param key1bytes [sampleKeyTwo]
    (by decide) (by decide) (by decide) (by decide)

end CtDiag
